import Mathlib

/-!
Verification of the Payment Settlement & Dynamic Pricing Engine.

This file gives a shallow embedding of the credit ledger
(`backend/src/payment/engine.ts`), the payment middleware
(`backend/src/payment/middleware.ts`, concatenated into `index.ts` in the
source drop), the on-chain verification helper (`verifyTransaction`) and the
negotiation price state machine (`agent/negotiationAgent.ts`), together with
theorems settling the specified properties.

Modelling conventions:
- MongoDB documents become Lean structures; a collection keyed by `userId`
  becomes an association list (first match wins, as `findOne`/`updateOne` do
  on a unique key); the append-only transaction collection becomes a `List`
  with insertion order preserved (new rows appended at the end).
- Monetary amounts are `Int` (signed cents, as in the source).
- Timestamps are `Nat` (milliseconds); `Date.now() - createdAt < 300000`
  translates to truncated `Nat` subtraction, which decides the same way as
  the JS comparison whenever it is consulted.
- `crypto.randomUUID()` becomes an explicit id parameter.
- Asynchronous interleaving of atomic `findOneAndUpdate` steps is modelled
  by a step relation (`LedgerStep`) whose deduction step carries exactly the
  guard of the conditional update in `processPayment`.
-/

/-- JS `String.prototype.endsWith`, modelled on the character list so that
it evaluates inside the kernel. -/
def strEndsWith (s suffix : String) : Bool :=
  suffix.data.isSuffixOf s.data

/-- JS `String.prototype.toLowerCase` on one (ASCII) character. -/
def lowerChar (c : Char) : Char :=
  if 65 ≤ c.toNat ∧ c.toNat ≤ 90 then Char.ofNat (c.toNat + 32) else c

/-- JS `String.prototype.toLowerCase`, modelled on the character list. -/
def lowerStr (s : String) : String :=
  String.mk (s.data.map lowerChar)

/-- Transaction kinds, from `db.ts` (`TransactionType`). -/
inductive TransactionType
  | PURCHASE
  | USAGE
  | DIRECT_USDC
  | REFUND
  | ADJUSTMENT
deriving DecidableEq, Repr

/-- Transaction statuses, from `db.ts` (`TransactionStatus`). -/
inductive TransactionStatus
  | PENDING
  | CONFIRMED
  | FAILED
deriving DecidableEq, Repr

/-- One row of the `userCredits` collection (`db.ts`, `UserCredit`). -/
structure UserCredit where
  balance : Int
  lifetimePurchased : Int
  lifetimeUsed : Int
  updatedAt : Nat
deriving DecidableEq, Repr

/-- One row of the `creditTransactions` collection (`db.ts`,
`CreditTransaction`); `origTxId` embeds `metadata.originalTxId`. -/
structure CreditTransaction where
  id : String
  userId : String
  type : TransactionType
  amount : Int
  txHash : Option String
  status : TransactionStatus
  origTxId : Option String
  createdAt : Nat
deriving DecidableEq, Repr

/-- The persistent store: the two collections of `db.ts`. -/
structure LedgerState where
  accounts : List (String × UserCredit)
  txns : List CreditTransaction
deriving DecidableEq, Repr

/-- Mongo `findOne {userId}` on the `userCredits` collection. -/
def lookupAcct : List (String × UserCredit) → String → Option UserCredit
  | [], _ => none
  | (k, v) :: rest, u => if k = u then some v else lookupAcct rest u

/-- Mongo `updateOne {userId}` (no upsert): rewrite the first matching row. -/
def setAcct : List (String × UserCredit) → String → (UserCredit → UserCredit) →
    List (String × UserCredit)
  | [], _, _ => []
  | (k, v) :: rest, u, f =>
      if k = u then (k, f v) :: rest else (k, v) :: setAcct rest u f

/-- Balance of an identity as `getUserCredits` reports it
(`engine.ts`, `user?.balance || 0`). -/
def LedgerState.balanceOf (st : LedgerState) (userId : String) : Int :=
  match lookupAcct st.accounts userId with
  | some a => a.balance
  | none => 0

/-- Result record of `processPayment` (`engine.ts`, `PaymentProcessResult`). -/
structure PaymentProcessResult where
  remainingCostCents : Int
  creditsDeducted : Int
  transactionId : Option String
deriving DecidableEq, Repr

/-- Payment preference (`engine.ts`, `PaymentPreference`). -/
inductive PaymentPreference
  | CREDITS_FIRST
  | DIRECT_USDC
deriving DecidableEq, Repr

/-- Function `processPayment` from `engine.ts` (lines 17-80), sequential view: with no
concurrent writer the `findOneAndUpdate` guard `balance >= toDeduct` reads
the same balance the preceding `findOne` read, so the conditional update
succeeds and the retry recursion is not entered.  `txId` stands for the
`crypto.randomUUID()` value, `now` for `new Date()`. -/
def processPayment (st : LedgerState) (actionCostCents : Int) (userId : String)
    (paymentPreference : PaymentPreference) (txId : String) (now : Nat) :
    LedgerState × PaymentProcessResult :=
  if actionCostCents ≤ 0 then
    (st, ⟨0, 0, none⟩)
  else if paymentPreference = PaymentPreference.DIRECT_USDC then
    (st, ⟨actionCostCents, 0, none⟩)
  else
    match lookupAcct st.accounts userId with
    | none => (st, ⟨actionCostCents, 0, none⟩)
    | some userCredit =>
      if userCredit.balance ≤ 0 then
        (st, ⟨actionCostCents, 0, none⟩)
      else
        let toDeduct := min userCredit.balance actionCostCents
        let accounts' := setAcct st.accounts userId fun a =>
          { a with balance := a.balance - toDeduct,
                   lifetimeUsed := a.lifetimeUsed + toDeduct,
                   updatedAt := now }
        let usageTxn : CreditTransaction :=
          { id := txId, userId := userId, type := TransactionType.USAGE,
            amount := -toDeduct, txHash := none,
            status := TransactionStatus.CONFIRMED, origTxId := none,
            createdAt := now }
        (⟨accounts', st.txns ++ [usageTxn]⟩,
         ⟨actionCostCents - toDeduct, toDeduct, some txId⟩)

/-- Mongo `findOne {id, type: USAGE, status: CONFIRMED}` from `refundCredits`. -/
def findUsageConfirmed (st : LedgerState) (originalTransactionId : String) :
    Option CreditTransaction :=
  st.txns.find? fun t =>
    decide (t.id = originalTransactionId ∧ t.type = TransactionType.USAGE ∧
      t.status = TransactionStatus.CONFIRMED)

/-- Mongo `findOne {type: REFUND, "metadata.originalTxId": id}` from
`refundCredits` (the double-refund existence check). -/
def hasRefundRow (st : LedgerState) (originalTransactionId : String) : Bool :=
  st.txns.any fun t =>
    decide (t.type = TransactionType.REFUND ∧
      t.origTxId = some originalTransactionId)

/-- Function `refundCredits` from `engine.ts` (lines 86-121).  `refundTxId` stands for
the fresh `crypto.randomUUID()`. -/
def refundCredits (st : LedgerState) (originalTransactionId : String)
    (refundTxId : String) (now : Nat) : LedgerState × Bool :=
  match findUsageConfirmed st originalTransactionId with
  | none => (st, false)
  | some originalTx =>
    if hasRefundRow st originalTransactionId then
      (st, false)
    else
      let refundAmount := |originalTx.amount|
      let accounts' := setAcct st.accounts originalTx.userId fun a =>
        { a with balance := a.balance + refundAmount, updatedAt := now }
      let refundTxn : CreditTransaction :=
        { id := refundTxId, userId := originalTx.userId,
          type := TransactionType.REFUND, amount := refundAmount,
          txHash := none, status := TransactionStatus.CONFIRMED,
          origTxId := some originalTransactionId, createdAt := now }
      (⟨accounts', st.txns ++ [refundTxn]⟩, true)

/-- Mongo `findOne {txHash, status: CONFIRMED}` from `mintCredits` (the
idempotency lookup). -/
def hasConfirmedTxHash (st : LedgerState) (txHash : String) : Bool :=
  st.txns.any fun t =>
    decide (t.txHash = some txHash ∧ t.status = TransactionStatus.CONFIRMED)

/-- Function `mintCredits` from `engine.ts` (lines 127-161): idempotency lookup on
`txHash`, then an insert of a CONFIRMED PURCHASE row and an upsert on
`userCredits` (`$inc` balance/lifetimePurchased, `$setOnInsert`
lifetimeUsed 0). -/
def mintCredits (st : LedgerState) (userId : String) (amountCents : Int)
    (txHash : String) (txId : String) (now : Nat) : LedgerState × Bool :=
  if hasConfirmedTxHash st txHash then
    (st, true)
  else
    let purchaseTxn : CreditTransaction :=
      { id := txId, userId := userId, type := TransactionType.PURCHASE,
        amount := amountCents, txHash := some txHash,
        status := TransactionStatus.CONFIRMED, origTxId := none,
        createdAt := now }
    let accounts' :=
      match lookupAcct st.accounts userId with
      | some _ => setAcct st.accounts userId fun a =>
          { a with balance := a.balance + amountCents,
                   lifetimePurchased := a.lifetimePurchased + amountCents,
                   updatedAt := now }
      | none => st.accounts ++
          [(userId, { balance := amountCents, lifetimePurchased := amountCents,
                      lifetimeUsed := 0, updatedAt := now })]
    (⟨accounts', st.txns ++ [purchaseTxn]⟩, true)

/-- Mongo `findOne({userId, type: USAGE}, {sort: {createdAt: -1}})` from the
settling branch of `requirePayment` (middleware lines 411-415): the USAGE
row of this user with the greatest `createdAt` (the first listed one among
equal timestamps). -/
def latestUsageTx (st : LedgerState) (userId : String) :
    Option CreditTransaction :=
  (st.txns.filter fun t =>
      decide (t.userId = userId ∧ t.type = TransactionType.USAGE)).foldl
    (fun acc t =>
      match acc with
      | none => some t
      | some u => if u.createdAt < t.createdAt then some t else some u)
    none

/-- The recovery step of the settling branch of `requirePayment`
(middleware lines 410-420): re-read the most recent USAGE row; if it is
younger than 300000 ms, recover `(creditsDeducted, remainingCostCents,
transactionId)` from it, else keep the defaults `(0, actionCost, none)`. -/
def recoverSettlement (st : LedgerState) (walletAddress : String)
    (actionCost : Int) (now : Nat) : Int × Int × Option String :=
  match latestUsageTx st walletAddress with
  | some latestTx =>
      if now - latestTx.createdAt < 300000 then
        (-latestTx.amount, actionCost - -latestTx.amount, some latestTx.id)
      else
        (0, actionCost, none)
  | none => (0, actionCost, none)

/-- Outcome of the external x402 exchange, as `requirePayment` observes it:
`processHTTPRequest` yields a payment-error response, or a verified payment
whose `processSettlement` call then fails or succeeds (possibly carrying a
`settlement.transaction` reference). -/
inductive SettleOutcome
  | paymentError
  | verifiedFailed
  | verifiedSuccess (txRef : Option String)
deriving DecidableEq, Repr

/-- What `requirePayment` does with the HTTP exchange, abstracted from the
Express plumbing: pass control on with the payment record, return the x402
payment-error response (augmented with `creditsDeducted` and
`remainingRequiredCents`), or return the 402 "Settlement failed" response. -/
inductive MiddlewareResult
  | next (creditsDeducted usdcPaid : Int) (transactionId : Option String)
  | paymentErrorResponse (creditsDeducted remainingRequiredCents : Int)
  | settlementFailedResponse
deriving DecidableEq, Repr

/-- Function `requirePayment` from `middleware.ts` (lines 371-509), with the price
already resolved to `actionCost` and the x402 network exchange abstracted
into `outcome`.  `isSettling` is `!!req.headers["payment-authorization"]`;
when it is false the middleware runs `processPayment`, when it is true it
recovers the prior deduction via `recoverSettlement` and performs no write
before settlement.  On a verified settlement a CONFIRMED DIRECT_USDC row is
inserted; on `verifiedFailed` the middleware surfaces the failure without
any further ledger access (`refundCredits` is never invoked). -/
def requirePayment (st : LedgerState) (walletAddress : String)
    (actionCost : Int) (isSettling useCreditsFirst : Bool)
    (freshTxId freshRecordId : String) (now : Nat)
    (outcome : SettleOutcome) : LedgerState × MiddlewareResult :=
  let paymentPref := if useCreditsFirst then PaymentPreference.CREDITS_FIRST
    else PaymentPreference.DIRECT_USDC
  let step1 : LedgerState × Int × Int × Option String :=
    if isSettling then
      (st, recoverSettlement st walletAddress actionCost now)
    else
      let pr := processPayment st actionCost walletAddress paymentPref
        freshTxId now
      (pr.1, pr.2.creditsDeducted, pr.2.remainingCostCents,
       pr.2.transactionId)
  let st1 := step1.1
  let creditsDeducted := step1.2.1
  let remainingCostCents := step1.2.2.1
  let transactionId := step1.2.2.2
  if remainingCostCents ≤ 0 ∧ isSettling = false then
    (st1, MiddlewareResult.next creditsDeducted 0 transactionId)
  else
    match outcome with
    | SettleOutcome.paymentError =>
        (st1, MiddlewareResult.paymentErrorResponse creditsDeducted
          remainingCostCents)
    | SettleOutcome.verifiedFailed =>
        (st1, MiddlewareResult.settlementFailedResponse)
    | SettleOutcome.verifiedSuccess txRef =>
        let recordTxn : CreditTransaction :=
          { id := transactionId.getD freshRecordId, userId := walletAddress,
            type := TransactionType.DIRECT_USDC, amount := remainingCostCents,
            txHash := txRef, status := TransactionStatus.CONFIRMED,
            origTxId := none, createdAt := now }
        (⟨st1.accounts, st1.txns ++ [recordTxn]⟩,
         MiddlewareResult.next creditsDeducted remainingCostCents
           (match txRef with
            | some r => some r
            | none => transactionId))

/-- One ERC-20 `Transfer` event log as `verifyTransaction` reads it:
`topics[0]` (the event signature), the from-address decoded from
`topics[1]`, and the transferred value decoded from `data`. -/
structure TransferLog where
  topic0 : String
  fromAddr : String
  data : Int
deriving DecidableEq, Repr

/-- The on-chain facts `verifyTransaction` consults: receipt status, the
transaction sender (`tx.from`), the native value (`tx.value`) and the
receipt logs. -/
structure ChainTx where
  receiptSuccess : Bool
  sender : String
  value : Int
  logs : List TransferLog
deriving DecidableEq, Repr

/-- The keccak signature of `Transfer(address,address,uint256)`
(`verifyTransaction`). -/
def transferSignature : String :=
  "0xddf252ad1be2c89b69c2b068fc378daa952ba7f163c4a11628f55a4df523b3ef"

/-- Sum of the `Transfer`-event values whose from-address matches the
claimed wallet (the `paidAmountRaw` accumulation loop of
`verifyTransaction`). -/
def paidAmountRaw (logs : List TransferLog) (userWallet : String) : Int :=
  (logs.filter fun l =>
      decide (l.topic0 = transferSignature ∧
        lowerStr l.fromAddr = lowerStr userWallet)).foldl
    (fun acc l => acc + l.data) 0

/-- Function `verifyTransaction` from `index.ts` (lines 260-331), with the RPC reads
abstracted into `tx`: require receipt success and a matching sender, then
accept if the summed decoded USDC transfer is at least
`expectedCents * 10000` minor units, or — the lenient hackathon fallback —
if the transaction carried any positive native value. -/
def verifyTransaction (tx : ChainTx) (expectedCents : Int)
    (userWallet : String) : Bool :=
  if tx.receiptSuccess = false then
    false
  else if lowerStr tx.sender ≠ lowerStr userWallet then
    false
  else
    let expectedUnits := expectedCents * 10000
    if expectedUnits ≤ paidAmountRaw tx.logs userWallet then
      true
    else if 0 < tx.value then
      true
    else
      false

/-- Modelled from the spec: the pricing-tier helpers of `lib/zkVerifier.ts`
(`isEduDomain`/`isOrgDomain` combined), which is imported by
`negotiationAgent.ts` but absent from the source drop.  The spec classifies
domains into two tiers: commercial versus edu/org (".edu", ".org"). -/
def isEduOrgDomain (domain : String) : Bool :=
  strEndsWith domain ".edu" || strEndsWith domain ".org"

/-- Modelled from the spec: `getStartingPrice` of the missing
`lib/zkVerifier.ts`.  Commercial domains start at 10 cents, edu/org domains
at 5 cents. -/
def getStartingPrice (domain : String) : Int :=
  if isEduOrgDomain domain then 5 else 10

/-- Modelled from the spec: `getFloorPrice` of the missing
`lib/zkVerifier.ts`.  Commercial floor 5 cents, edu/org floor 1 cent. -/
def getFloorPrice (domain : String) : Int :=
  if isEduOrgDomain domain then 1 else 5

/-- Modelled from the spec: the tier's `discountSchedule`, an ordered
sequence of prices strictly decreasing from the starting price to the
floor; the spec's worked example is `[10, 7, 5]` for the commercial tier. -/
def discountSchedule (domain : String) : List Int :=
  if isEduOrgDomain domain then [5, 3, 1] else [10, 7, 5]

/-- Modelled from the spec: `getNextPrice` of the missing
`lib/zkVerifier.ts` — "the next strictly-lower price in the tier's discount
schedule relative to current price; if none remains, clamps to floor". -/
def getNextPrice (domain : String) (currentCents : Int) : Int :=
  match (discountSchedule domain).filter fun p => decide (p < currentCents) with
  | [] => getFloorPrice domain
  | p :: _ => p

/-- Per-wallet negotiation state, one entry of the in-memory `pricingState`
map of `negotiationAgent.ts`. -/
structure NegotiationState where
  cents : Int
  round : Nat
  domain : String
  topic : Option String
  negotiationAttempts : Nat
deriving DecidableEq, Repr

/-- The state `getCurrentPrice` seeds on first lookup
(`negotiationAgent.ts` lines 161-170). -/
def initialNegotiationState (domain : String) : NegotiationState :=
  { cents := getStartingPrice domain, round := 0, domain := domain,
    topic := none, negotiationAttempts := 0 }

/-- Function `updatePrice` from `negotiationAgent.ts` (lines 173-191), restricted to
an existing session (the agent always initialises the session first via
`getCurrentPrice`): reject any price below the floor of the *stored*
domain, otherwise set the price and bump `round`.  Returns the new state
and the `success` flag. -/
def updatePrice (s : NegotiationState) (newPriceCents : Int) :
    NegotiationState × Bool :=
  if newPriceCents < getFloorPrice s.domain then
    (s, false)
  else
    ({ s with cents := newPriceCents, round := s.round + 1 }, true)

/-- Function `incrementNegotiationAttempts` from `negotiationAgent.ts`
(lines 194-204), restricted to an existing session. -/
def incrementNegotiationAttempts (s : NegotiationState) : NegotiationState :=
  { s with negotiationAttempts := s.negotiationAttempts + 1 }

/-- Function `setTopic` from `negotiationAgent.ts` (lines 207-212), restricted to an
existing session. -/
def setTopic (s : NegotiationState) (topic : String) : NegotiationState :=
  { s with topic := some topic }

/-- The advisory oracle's action labels (`negotiationAgent.ts`,
`AIResponse.action`). -/
inductive AgentAction
  | quote_price
  | pushback
  | discount
  | floor
  | chat
deriving DecidableEq, Repr

/-- The backend-enforcement switch of `runNegotiationAgent`
(`negotiationAgent.ts` lines 445-533), i.e. the state mutation and the
`finalPrice` it reports, given the parsed oracle suggestion.  `domain` is
the domain string passed with the request (the floor used by the agent),
`suggestedPriceCents` the oracle's suggested price — which the switch never
reads — and `msgTopic` the topic the `quote_price` branch extracts from the
message, when its pattern matches.  `currentState` is the session state
after the initial `getCurrentPrice` (so the session exists). -/
def runNegotiationAgent (action : AgentAction) (domain : String)
    (suggestedPriceCents : Option Int) (msgTopic : Option String)
    (currentState : NegotiationState) : NegotiationState × Int :=
  let floorP := getFloorPrice domain
  match action with
  | AgentAction.quote_price =>
      let s' := match msgTopic with
        | some t => setTopic currentState t
        | none => currentState
      (s', currentState.cents)
  | AgentAction.pushback =>
      (incrementNegotiationAttempts currentState, currentState.cents)
  | AgentAction.discount =>
      if currentState.negotiationAttempts = 0 then
        (incrementNegotiationAttempts currentState, currentState.cents)
      else
        let s1 := incrementNegotiationAttempts currentState
        let nextPrice := getNextPrice domain currentState.cents
        if nextPrice < currentState.cents then
          let upd := updatePrice s1 nextPrice
          (upd.1, if upd.2 then nextPrice else currentState.cents)
        else
          (s1, floorP)
  | AgentAction.floor =>
      let s1 := incrementNegotiationAttempts currentState
      if floorP < currentState.cents then
        ((updatePrice s1 floorP).1, floorP)
      else
        (s1, floorP)
  | AgentAction.chat =>
      (currentState, currentState.cents)

/-- One inbound negotiation turn as it affects the stored session state:
the oracle action, the request's domain string, the oracle's suggested
price and the extracted topic. -/
structure NegotiationTurn where
  action : AgentAction
  domain : String
  suggestedPriceCents : Option Int
  msgTopic : Option String
deriving DecidableEq, Repr

/-- Fold a sequence of negotiation turns over the stored session state. -/
def runNegotiationTurns (turns : List NegotiationTurn)
    (s : NegotiationState) : NegotiationState :=
  turns.foldl
    (fun st turn =>
      (runNegotiationAgent turn.action turn.domain turn.suggestedPriceCents
        turn.msgTopic st).1)
    s

/-- Single-identity view of the credit account for the concurrency
argument: the balance together with the running totals of confirmed USAGE
deductions and of confirmed credit-increasing rows. -/
structure CreditView where
  balance : Int
  usageTotal : Int
  creditTotal : Int
deriving DecidableEq, Repr

/-- Atomic ledger events on one identity's account, as the engine performs
them.  `deduct` is the successful `findOneAndUpdate` of `processPayment`:
the caller computed `toDeduct = min balRead actionCost` from some earlier
read `balRead` (possibly stale under concurrency, but positive, since a
non-positive read returns early) of a call with positive cost, and the
store accepted the update because the guard `balance >= toDeduct` held
against the *current* balance; the CONFIRMED USAGE row of `-toDeduct` is
appended.  `credit` is a balance-increasing `$inc` of a confirmed
PURCHASE/REFUND/ADJUSTMENT amount (`mintCredits`/`refundCredits`). -/
inductive LedgerStep : CreditView → CreditView → Prop
  | deduct (s : CreditView) (balRead actionCost : Int)
      (hcost : 0 < actionCost) (hread : 0 < balRead)
      (hguard : min balRead actionCost ≤ s.balance) :
      LedgerStep s
        { balance := s.balance - min balRead actionCost,
          usageTotal := s.usageTotal + min balRead actionCost,
          creditTotal := s.creditTotal }
  | credit (s : CreditView) (amount : Int) (hamount : 0 ≤ amount) :
      LedgerStep s
        { balance := s.balance + amount,
          usageTotal := s.usageTotal,
          creditTotal := s.creditTotal + amount }

/-- A brand-new account: zero balance, no confirmed rows. -/
def emptyCreditView : CreditView := { balance := 0, usageTotal := 0, creditTotal := 0 }

/-- Number of REFUND rows referencing a given original transaction id. -/
def refundRowCount (st : LedgerState) (originalTransactionId : String) : Nat :=
  (st.txns.filter fun t =>
    decide (t.type = TransactionType.REFUND ∧
      t.origTxId = some originalTransactionId)).length

/-- Sample store for witnesses: one identity `"u"` holding 60 cents of
credits bought in one confirmed purchase. -/
def sampleStore : LedgerState :=
  { accounts := [("u", { balance := 60, lifetimePurchased := 60,
                         lifetimeUsed := 0, updatedAt := 0 })],
    txns := [{ id := "p1", userId := "u", type := TransactionType.PURCHASE,
               amount := 60, txHash := some "hash1",
               status := TransactionStatus.CONFIRMED, origTxId := none,
               createdAt := 0 }] }

/-- Sample store for the refund witness: identity `"u"` bought 60 cents and
spent all of them in the confirmed USAGE row `"t1"`. -/
def sampleUsageStore : LedgerState :=
  { accounts := [("u", { balance := 0, lifetimePurchased := 60,
                         lifetimeUsed := 60, updatedAt := 5 })],
    txns := [{ id := "p1", userId := "u", type := TransactionType.PURCHASE,
               amount := 60, txHash := some "hash1",
               status := TransactionStatus.CONFIRMED, origTxId := none,
               createdAt := 0 },
             { id := "t1", userId := "u", type := TransactionType.USAGE,
               amount := -60, txHash := none,
               status := TransactionStatus.CONFIRMED, origTxId := none,
               createdAt := 5 }] }

/-- A successful on-chain transaction carrying no token transfer at all but
a positive native value (the hackathon ETH fallback scenario). -/
def ethFallbackTx : ChainTx :=
  { receiptSuccess := true, sender := "0xabc", value := 1, logs := [] }

/-- A successful on-chain transaction with a 500000-unit USDC transfer from
the claimed wallet (mixed-case sender). -/
def paidTx : ChainTx :=
  { receiptSuccess := true, sender := "0xAbC", value := 0,
    logs := [{ topic0 := transferSignature, fromAddr := "0xabc",
               data := 500000 }] }

section Lemmas

/-- Looking up after `setAcct` on the same key applies the update. -/
theorem lookupAcct_setAcct_self (l : List (String × UserCredit)) (u : String)
    (f : UserCredit → UserCredit) :
    lookupAcct (setAcct l u f) u = (lookupAcct l u).map f := by
  induction l with
  | nil => simp [lookupAcct, setAcct]
  | cons hd tl ih =>
    obtain ⟨k, v⟩ := hd
    by_cases h : k = u
    · simp [lookupAcct, setAcct, h]
    · simp [lookupAcct, setAcct, h, ih]

/-- Lookup over an appended list falls through when the first part
has no match. -/
theorem lookupAcct_append_of_none (l1 l2 : List (String × UserCredit))
    (u : String) (h : lookupAcct l1 u = none) :
    lookupAcct (l1 ++ l2) u = lookupAcct l2 u := by
  induction l1 with
  | nil => simp
  | cons hd tl ih =>
    obtain ⟨k, v⟩ := hd
    by_cases hk : k = u
    · simp [lookupAcct, hk] at h
    · simp [lookupAcct, hk] at h ⊢
      exact ih h

/-- A `LedgerStep` preserves the account invariant: non-negative balance
that equals confirmed credits minus confirmed usage. -/
theorem LedgerStep.preserves_invariant {s s' : CreditView}
    (hstep : LedgerStep s s') (h1 : 0 ≤ s.balance)
    (h2 : s.balance = s.creditTotal - s.usageTotal) :
    0 ≤ s'.balance ∧ s'.balance = s'.creditTotal - s'.usageTotal := by
  cases hstep with
  | deduct balRead actionCost hcost hread hguard =>
    constructor
    · simp only
      omega
    · simp only
      omega
  | credit amount hamount =>
    constructor
    · simp only
      omega
    · simp only
      omega

/-- Once a CONFIRMED row carries the reference, `mintCredits` is a pure
success without any write. -/
theorem mintCredits_duplicate (st : LedgerState) (userId : String)
    (amountCents : Int) (txRef txId : String) (now : Nat)
    (h : hasConfirmedTxHash st txRef = true) :
    mintCredits st userId amountCents txRef txId now = (st, true) := by
  unfold mintCredits
  rw [h]
  simp

end Lemmas

/-- C1: over every sequence of atomic ledger events against one identity —
in particular every interleaving of concurrent `processPayment` deductions,
each of which commits `min(balance read, requested)` only when the store
guard `balance ≥ toDeduct` holds — the balance never becomes negative and
the total of confirmed USAGE deductions never exceeds the total of
confirmed credit-increasing amounts. -/
theorem ledger_balance_never_negative (s : CreditView)
    (h : Relation.ReflTransGen LedgerStep emptyCreditView s) :
    0 ≤ s.balance ∧ s.usageTotal ≤ s.creditTotal := by
  have key : 0 ≤ s.balance ∧ s.balance = s.creditTotal - s.usageTotal := by
    induction h with
    | refl => simp [emptyCreditView]
    | tail _ hstep ih => exact hstep.preserves_invariant ih.1 ih.2
  exact ⟨key.1, by omega⟩

/-- Witness for C1: fund 60 cents, then two concurrent deductions — one
that read the fresh balance 60 and deducts 50, one that read a stale
balance 60 but whose guard only admits a further 10. -/
theorem ledger_balance_never_negative_witness :
    0 ≤ (0:Int) ∧ (60:Int) ≤ 60 := by
  have hchain : Relation.ReflTransGen LedgerStep emptyCreditView
      { balance := 0, usageTotal := 60, creditTotal := 60 } := by
    have s1 : LedgerStep emptyCreditView
        { balance := 60, usageTotal := 0, creditTotal := 60 } := by
      have := LedgerStep.credit emptyCreditView 60 (by norm_num)
      simpa [emptyCreditView] using this
    have s2 : LedgerStep { balance := 60, usageTotal := 0, creditTotal := 60 }
        { balance := 10, usageTotal := 50, creditTotal := 60 } := by
      have := LedgerStep.deduct
        { balance := 60, usageTotal := 0, creditTotal := 60 }
        60 50 (by norm_num) (by norm_num) (by norm_num)
      simpa using this
    have s3 : LedgerStep { balance := 10, usageTotal := 50, creditTotal := 60 }
        { balance := 0, usageTotal := 60, creditTotal := 60 } := by
      have := LedgerStep.deduct
        { balance := 10, usageTotal := 50, creditTotal := 60 }
        10 10 (by norm_num) (by norm_num) (by norm_num)
      simpa using this
    exact Relation.ReflTransGen.tail
      (Relation.ReflTransGen.tail (Relation.ReflTransGen.single s1) s2) s3
  exact ledger_balance_never_negative _ hchain

/-- C7: under CREDITS_FIRST with a positive cost, `processPayment` deducts
exactly `min(balance, cost)` and leaves `cost - min(balance, cost)` to the
external rail. -/
theorem processPayment_deducts_min (st : LedgerState) (userId txId : String)
    (actionCostCents : Int) (now : Nat) (acct : UserCredit)
    (hfind : lookupAcct st.accounts userId = some acct)
    (hbal : 0 ≤ acct.balance) (hcost : 0 < actionCostCents) :
    (processPayment st actionCostCents userId PaymentPreference.CREDITS_FIRST
        txId now).2.creditsDeducted = min acct.balance actionCostCents ∧
    (processPayment st actionCostCents userId PaymentPreference.CREDITS_FIRST
        txId now).2.remainingCostCents =
      actionCostCents - min acct.balance actionCostCents := by
  by_cases hzero : acct.balance ≤ 0
  · have hb0 : acct.balance = 0 := le_antisymm hzero hbal
    simp [processPayment, hfind, hzero, hb0, not_le.mpr hcost,
      min_eq_left (le_of_lt hcost), le_of_lt hcost]
  · simp [processPayment, hfind, hzero, not_le.mpr hcost]

/-- Witness for C7: balance 60, cost 100 — deducted 60, remaining 40. -/
theorem processPayment_deducts_min_witness :
    (processPayment sampleStore 100 "u" PaymentPreference.CREDITS_FIRST
        "t1" 5).2.creditsDeducted = min (60:Int) 100 ∧
    (processPayment sampleStore 100 "u" PaymentPreference.CREDITS_FIRST
        "t1" 5).2.remainingCostCents = 100 - min (60:Int) 100 :=
  processPayment_deducts_min sampleStore "u" "t1" 100 5
    { balance := 60, lifetimePurchased := 60, lifetimeUsed := 0,
      updatedAt := 0 }
    (by decide) (by decide) (by decide)

/-- C3: minting against a fresh external reference succeeds, raises the
balance by the minted amount, and leaves exactly one CONFIRMED PURCHASE
row carrying the reference; the duplicate second call returns success
without touching the store. -/
theorem mintCredits_idempotent (st : LedgerState)
    (userId txRef id1 id2 : String) (amountCents : Int) (t1 t2 : Nat)
    (hfresh : hasConfirmedTxHash st txRef = false) :
    (mintCredits st userId amountCents txRef id1 t1).2 = true ∧
    mintCredits (mintCredits st userId amountCents txRef id1 t1).1 userId
        amountCents txRef id2 t2 =
      ((mintCredits st userId amountCents txRef id1 t1).1, true) ∧
    (mintCredits st userId amountCents txRef id1 t1).1.balanceOf userId =
      st.balanceOf userId + amountCents ∧
    ((mintCredits st userId amountCents txRef id1 t1).1.txns.filter fun t =>
        decide (t.type = TransactionType.PURCHASE ∧
          t.status = TransactionStatus.CONFIRMED ∧
          t.txHash = some txRef)).length = 1 := by
  have hall : ∀ t ∈ st.txns,
      ¬(t.txHash = some txRef ∧ t.status = TransactionStatus.CONFIRMED) := by
    have h' := hfresh
    unfold hasConfirmedTxHash at h'
    rw [List.any_eq_false] at h'
    intro t ht
    have := h' t ht
    simpa using this
  have hfilter : (st.txns.filter fun t =>
      decide (t.type = TransactionType.PURCHASE ∧
        t.status = TransactionStatus.CONFIRMED ∧
        t.txHash = some txRef)) = [] := by
    rw [List.filter_eq_nil_iff]
    intro t ht
    simp only [decide_eq_true_eq, not_and]
    intro _ hst hh
    exact hall t ht ⟨hh, hst⟩
  rcases hacct : lookupAcct st.accounts userId with _ | a
  case none =>
    have h1 : mintCredits st userId amountCents txRef id1 t1 =
        ({ accounts := st.accounts ++
            [(userId, { balance := amountCents,
                        lifetimePurchased := amountCents,
                        lifetimeUsed := 0, updatedAt := t1 })],
           txns := st.txns ++
            [{ id := id1, userId := userId,
               type := TransactionType.PURCHASE, amount := amountCents,
               txHash := some txRef, status := TransactionStatus.CONFIRMED,
               origTxId := none, createdAt := t1 }] }, true) := by
      unfold mintCredits
      rw [hfresh]
      simp [hacct]
    have hnew : hasConfirmedTxHash
        (mintCredits st userId amountCents txRef id1 t1).1 txRef = true := by
      rw [h1]
      simp [hasConfirmedTxHash, List.any_append]
    have h2 : mintCredits (mintCredits st userId amountCents txRef id1 t1).1
        userId amountCents txRef id2 t2 =
        ((mintCredits st userId amountCents txRef id1 t1).1, true) :=
      mintCredits_duplicate _ _ _ _ _ _ hnew
    refine ⟨by rw [h1], h2, ?_, ?_⟩
    · rw [h1]
      simp [LedgerState.balanceOf,
        lookupAcct_append_of_none _ _ _ hacct, lookupAcct, hacct]
    · rw [h1]
      simp [List.filter_append, hfilter]
      intro t ht _ hst hh
      exact hall t ht ⟨hh, hst⟩
  case some =>
    have h1 : mintCredits st userId amountCents txRef id1 t1 =
        ({ accounts := setAcct st.accounts userId fun b =>
            { b with balance := b.balance + amountCents,
                     lifetimePurchased := b.lifetimePurchased + amountCents,
                     updatedAt := t1 },
           txns := st.txns ++
            [{ id := id1, userId := userId,
               type := TransactionType.PURCHASE, amount := amountCents,
               txHash := some txRef, status := TransactionStatus.CONFIRMED,
               origTxId := none, createdAt := t1 }] }, true) := by
      unfold mintCredits
      rw [hfresh]
      simp [hacct]
    have hnew : hasConfirmedTxHash
        (mintCredits st userId amountCents txRef id1 t1).1 txRef = true := by
      rw [h1]
      simp [hasConfirmedTxHash, List.any_append]
    have h2 : mintCredits (mintCredits st userId amountCents txRef id1 t1).1
        userId amountCents txRef id2 t2 =
        ((mintCredits st userId amountCents txRef id1 t1).1, true) :=
      mintCredits_duplicate _ _ _ _ _ _ hnew
    refine ⟨by rw [h1], h2, ?_, ?_⟩
    · rw [h1]
      simp [LedgerState.balanceOf, lookupAcct_setAcct_self, hacct]
    · rw [h1]
      simp [List.filter_append, hfilter]
      intro t ht _ hst hh
      exact hall t ht ⟨hh, hst⟩

/-- Witness for C3: minting 500 against the fresh reference `"hash2"`
twice — one balance increase, one CONFIRMED PURCHASE row. -/
theorem mintCredits_idempotent_witness :
    (mintCredits sampleStore "u" 500 "hash2" "m1" 10).2 = true ∧
    mintCredits (mintCredits sampleStore "u" 500 "hash2" "m1" 10).1 "u" 500
        "hash2" "m2" 20 =
      ((mintCredits sampleStore "u" 500 "hash2" "m1" 10).1, true) ∧
    (mintCredits sampleStore "u" 500 "hash2" "m1" 10).1.balanceOf "u" =
      sampleStore.balanceOf "u" + 500 ∧
    ((mintCredits sampleStore "u" 500 "hash2" "m1" 10).1.txns.filter fun t =>
        decide (t.type = TransactionType.PURCHASE ∧
          t.status = TransactionStatus.CONFIRMED ∧
          t.txHash = some "hash2")).length = 1 :=
  mintCredits_idempotent sampleStore "u" "hash2" "m1" "m2" 500 10 20
    (by decide)

/-- Refunding without a CONFIRMED USAGE row is a silent no-op. -/
theorem refundCredits_of_no_usage (st : LedgerState) (origId rid : String)
    (t : Nat) (h : findUsageConfirmed st origId = none) :
    refundCredits st origId rid t = (st, false) := by
  unfold refundCredits
  rw [h]

/-- Refunding with an existing REFUND row referencing the id is a
silent no-op. -/
theorem refundCredits_of_refund_row (st : LedgerState) (origId rid : String)
    (t : Nat) (h : hasRefundRow st origId = true) :
    refundCredits st origId rid t = (st, false) := by
  unfold refundCredits
  cases hfind : findUsageConfirmed st origId with
  | none => rfl
  | some tx =>
    rw [h]
    simp

/-- The successful branch of `refundCredits` in closed form. -/
theorem refundCredits_of_success (st : LedgerState) (origId rid : String)
    (t : Nat) (tx : CreditTransaction)
    (hfind : findUsageConfirmed st origId = some tx)
    (href : hasRefundRow st origId = false) :
    refundCredits st origId rid t =
      ({ accounts := setAcct st.accounts tx.userId fun a =>
          { a with balance := a.balance + |tx.amount|, updatedAt := t },
         txns := st.txns ++
          [{ id := rid, userId := tx.userId, type := TransactionType.REFUND,
             amount := |tx.amount|, txHash := none,
             status := TransactionStatus.CONFIRMED, origTxId := some origId,
             createdAt := t }] }, true) := by
  unfold refundCredits
  rw [hfind, href]
  simp

/-- No REFUND row referencing an id means a zero refund-row count. -/
theorem refundRowCount_eq_zero (st : LedgerState) (origId : String)
    (h : hasRefundRow st origId = false) : refundRowCount st origId = 0 := by
  unfold hasRefundRow at h
  rw [List.any_eq_false] at h
  unfold refundRowCount
  rw [List.length_eq_zero, List.filter_eq_nil_iff]
  intro t ht
  exact h t ht

/-- C4: `refundCredits` returns false and leaves the store untouched when
the USAGE transaction is absent, not CONFIRMED, or already refunded; over
two calls on the same id the refund is applied at most once, the first
successful call credits the usage amount back, and the second call is a
no-op returning false. -/
theorem refundCredits_no_double_refund (st : LedgerState)
    (origId rid1 rid2 : String) (t1 t2 : Nat) :
    (findUsageConfirmed st origId = none →
      refundCredits st origId rid1 t1 = (st, false)) ∧
    (hasRefundRow st origId = true →
      refundCredits st origId rid1 t1 = (st, false)) ∧
    ((refundCredits st origId rid1 t1).2 = true →
      refundCredits (refundCredits st origId rid1 t1).1 origId rid2 t2 =
        ((refundCredits st origId rid1 t1).1, false)) ∧
    (hasRefundRow st origId = false →
      refundRowCount (refundCredits (refundCredits st origId rid1 t1).1
        origId rid2 t2).1 origId ≤ 1) ∧
    (∀ tx acct, findUsageConfirmed st origId = some tx →
      hasRefundRow st origId = false →
      lookupAcct st.accounts tx.userId = some acct →
      (refundCredits st origId rid1 t1).2 = true ∧
      (refundCredits st origId rid1 t1).1.balanceOf tx.userId =
        st.balanceOf tx.userId + |tx.amount|) := by
  refine ⟨refundCredits_of_no_usage st origId rid1 t1,
    refundCredits_of_refund_row st origId rid1 t1, ?_, ?_, ?_⟩
  · intro htrue
    rcases hfind : findUsageConfirmed st origId with _ | tx
    · rw [refundCredits_of_no_usage st origId rid1 t1 hfind] at htrue
      simp at htrue
    · rcases href : hasRefundRow st origId with _ | _
      · have h1 := refundCredits_of_success st origId rid1 t1 tx hfind href
        rw [h1]
        have hfind1 : findUsageConfirmed
            (refundCredits st origId rid1 t1).1 origId = some tx := by
          rw [h1]
          unfold findUsageConfirmed at hfind ⊢
          simp only [List.find?_append, hfind]
          rfl
        have href1 : hasRefundRow (refundCredits st origId rid1 t1).1
            origId = true := by
          rw [h1]
          unfold hasRefundRow
          simp [List.any_append]
        rw [h1] at hfind1 href1
        exact refundCredits_of_refund_row _ origId rid2 t2 href1
      · rw [refundCredits_of_refund_row st origId rid1 t1 href] at htrue
        simp at htrue
  · intro href
    rcases hfind : findUsageConfirmed st origId with _ | tx
    · rw [refundCredits_of_no_usage st origId rid1 t1 hfind]
      simp only
      rcases hfind2 : findUsageConfirmed st origId with _ | tx2
      · rw [refundCredits_of_no_usage st origId rid2 t2 hfind2]
        simp [refundRowCount_eq_zero st origId href]
      · rw [hfind] at hfind2
        cases hfind2
    · have h1 := refundCredits_of_success st origId rid1 t1 tx hfind href
      have hcount1 : refundRowCount (refundCredits st origId rid1 t1).1
          origId = 1 := by
        rw [h1]
        unfold refundRowCount
        rw [List.filter_append]
        have hz := refundRowCount_eq_zero st origId href
        unfold refundRowCount at hz
        rw [List.length_eq_zero] at hz
        rw [hz]
        simp
      have href1 : hasRefundRow (refundCredits st origId rid1 t1).1
          origId = true := by
        rw [h1]
        unfold hasRefundRow
        simp [List.any_append]
      rw [refundCredits_of_refund_row _ origId rid2 t2 href1]
      simp only
      omega
  · intro tx acct hfind href hacct
    have h1 := refundCredits_of_success st origId rid1 t1 tx hfind href
    constructor
    · rw [h1]
    · rw [h1]
      simp [LedgerState.balanceOf, lookupAcct_setAcct_self, hacct]

/-- Witness for C4: `"u"` spent their 60 cents in USAGE row `"t1"`; the
first refund succeeds and restores the balance, the second is a no-op. -/
theorem refundCredits_no_double_refund_witness :
    (refundCredits sampleUsageStore "t1" "r1" 10).2 = true ∧
    (refundCredits sampleUsageStore "t1" "r1" 10).1.balanceOf "u" =
      sampleUsageStore.balanceOf "u" + 60 ∧
    refundCredits (refundCredits sampleUsageStore "t1" "r1" 10).1 "t1"
        "r2" 20 =
      ((refundCredits sampleUsageStore "t1" "r1" 10).1, false) := by
  have h := refundCredits_no_double_refund sampleUsageStore "t1" "r1" "r2"
    10 20
  have h5 := h.2.2.2.2
    { id := "t1", userId := "u", type := TransactionType.USAGE,
      amount := -60, txHash := none, status := TransactionStatus.CONFIRMED,
      origTxId := none, createdAt := 5 }
    { balance := 0, lifetimePurchased := 60, lifetimeUsed := 60,
      updatedAt := 5 }
    (by decide) (by decide) (by decide)
  exact ⟨h5.1, by simpa using h5.2, h.2.2.1 h5.1⟩

/-- One enforcement step preserves the session's domain, never raises the
stored price, and keeps it at or above the floor of the stored domain. -/
theorem runNegotiationAgent_step_inv (a : AgentAction) (d : String)
    (sp : Option Int) (tp : Option String) (s : NegotiationState) :
    (runNegotiationAgent a d sp tp s).1.domain = s.domain ∧
    (runNegotiationAgent a d sp tp s).1.cents ≤ s.cents ∧
    (getFloorPrice s.domain ≤ s.cents →
      getFloorPrice s.domain ≤ (runNegotiationAgent a d sp tp s).1.cents) := by
  cases a with
  | quote_price =>
    cases tp <;> simp [runNegotiationAgent, setTopic]
  | pushback =>
    simp [runNegotiationAgent, incrementNegotiationAttempts]
  | discount =>
    by_cases h0 : s.negotiationAttempts = 0
    · simp [runNegotiationAgent, h0, incrementNegotiationAttempts]
    · by_cases hlt : getNextPrice d s.cents < s.cents
      · by_cases hfl : getNextPrice d s.cents < getFloorPrice s.domain
        · simp [runNegotiationAgent, h0, hlt, updatePrice, hfl,
            incrementNegotiationAttempts]
        · simp [runNegotiationAgent, h0, hlt, updatePrice, hfl,
            incrementNegotiationAttempts]
          exact ⟨le_of_lt hlt, fun _ => le_of_not_lt hfl⟩
      · simp [runNegotiationAgent, h0, hlt, incrementNegotiationAttempts]
  | floor =>
    by_cases hlt : getFloorPrice d < s.cents
    · by_cases hfl : getFloorPrice d < getFloorPrice s.domain
      · simp [runNegotiationAgent, hlt, updatePrice, hfl,
          incrementNegotiationAttempts]
      · simp [runNegotiationAgent, hlt, updatePrice, hfl,
          incrementNegotiationAttempts]
        exact ⟨le_of_lt hlt, fun _ => le_of_not_lt hfl⟩
    · simp [runNegotiationAgent, hlt, incrementNegotiationAttempts]
  | chat =>
    simp [runNegotiationAgent]

/-- Folding any sequence of turns preserves the domain, never raises the
stored price, and keeps it at or above the floor of the stored domain. -/
theorem runNegotiationTurns_inv (turns : List NegotiationTurn)
    (s : NegotiationState) :
    (runNegotiationTurns turns s).domain = s.domain ∧
    (runNegotiationTurns turns s).cents ≤ s.cents ∧
    (getFloorPrice s.domain ≤ s.cents →
      getFloorPrice s.domain ≤ (runNegotiationTurns turns s).cents) := by
  induction turns generalizing s with
  | nil => simp [runNegotiationTurns]
  | cons turn rest ih =>
    have hstep := runNegotiationAgent_step_inv turn.action turn.domain
      turn.suggestedPriceCents turn.msgTopic s
    have hrest := ih (runNegotiationAgent turn.action turn.domain
      turn.suggestedPriceCents turn.msgTopic s).1
    rw [hstep.1] at hrest
    have hcons : runNegotiationTurns (turn :: rest) s =
        runNegotiationTurns rest (runNegotiationAgent turn.action turn.domain
          turn.suggestedPriceCents turn.msgTopic s).1 := by
      simp [runNegotiationTurns]
    rw [hcons]
    exact ⟨hrest.1, hrest.2.1.trans hstep.2.1,
      fun hf => hrest.2.2 (hstep.2.2 hf)⟩

/-- C5: starting from the seeded session, over every sequence of
negotiation turns the stored price never drops below the tier floor, and
extending the sequence never raises it (non-increasing lifetime). -/
theorem negotiation_price_invariant (domain : String)
    (turns more : List NegotiationTurn) :
    getFloorPrice domain ≤
      (runNegotiationTurns turns (initialNegotiationState domain)).cents ∧
    (runNegotiationTurns (turns ++ more)
        (initialNegotiationState domain)).cents ≤
      (runNegotiationTurns turns (initialNegotiationState domain)).cents := by
  have hfs : getFloorPrice domain ≤ getStartingPrice domain := by
    unfold getFloorPrice getStartingPrice
    cases isEduOrgDomain domain <;> norm_num
  have h1 := runNegotiationTurns_inv turns (initialNegotiationState domain)
  constructor
  · have := h1.2.2 (by simpa [initialNegotiationState] using hfs)
    simpa [initialNegotiationState] using this
  · have happ : runNegotiationTurns (turns ++ more)
        (initialNegotiationState domain) =
        runNegotiationTurns more
          (runNegotiationTurns turns (initialNegotiationState domain)) := by
      simp [runNegotiationTurns, List.foldl_append]
    rw [happ]
    exact (runNegotiationTurns_inv more _).2.1

/-- C6: an advisory `discount` while the session has zero negotiation
attempts is downgraded — the stored price is untouched, attempts is
incremented, and the state/price effect is exactly that of `pushback`; the
oracle's suggested price (arbitrary here) is never consulted. -/
theorem discount_downgraded_to_pushback (d : String) (sp : Option Int)
    (tp : Option String) (s : NegotiationState)
    (h : s.negotiationAttempts = 0) :
    runNegotiationAgent AgentAction.discount d sp tp s =
      ({ s with negotiationAttempts := s.negotiationAttempts + 1 },
       s.cents) ∧
    runNegotiationAgent AgentAction.discount d sp tp s =
      runNegotiationAgent AgentAction.pushback d sp tp s := by
  constructor <;>
    simp [runNegotiationAgent, h, incrementNegotiationAttempts]

/-- Witness for C6: a fresh commercial session, oracle suggesting a
1-cent discount — rejected, attempts bumped, price untouched. -/
theorem discount_downgraded_to_pushback_witness :
    runNegotiationAgent AgentAction.discount "acme.com" (some 1) none
        (initialNegotiationState "acme.com") =
      ({ initialNegotiationState "acme.com" with
          negotiationAttempts :=
            (initialNegotiationState "acme.com").negotiationAttempts + 1 },
       (initialNegotiationState "acme.com").cents) ∧
    runNegotiationAgent AgentAction.discount "acme.com" (some 1) none
        (initialNegotiationState "acme.com") =
      runNegotiationAgent AgentAction.pushback "acme.com" (some 1) none
        (initialNegotiationState "acme.com") :=
  discount_downgraded_to_pushback "acme.com" (some 1) none
    (initialNegotiationState "acme.com") rfl

/-- Counterexample to C9: a `chat` turn leaves `negotiationAttempts` at 0
instead of incrementing it — the `chat` case of the enforcement switch
performs no state change at all. -/
theorem chat_does_not_increment_attempts :
    (runNegotiationAgent AgentAction.chat "acme.com" none none
        (initialNegotiationState "acme.com")).1.negotiationAttempts = 0 ∧
    ¬((runNegotiationAgent AgentAction.chat "acme.com" none none
        (initialNegotiationState "acme.com")).1.negotiationAttempts =
      (initialNegotiationState "acme.com").negotiationAttempts + 1) := by
  constructor
  · rfl
  · simp [runNegotiationAgent, initialNegotiationState]

/-- C9 (amended): `pushback` and `floor` increment `negotiationAttempts` by
exactly one, `pushback` leaves the price unchanged and `floor` clamps it to
the tier floor; a `chat` turn changes nothing (attempts are NOT
incremented for `chat`). -/
theorem advance_attempts_amended (d : String) (sp : Option Int)
    (tp : Option String) (s : NegotiationState) (hd : s.domain = d)
    (hf : getFloorPrice d ≤ s.cents) :
    runNegotiationAgent AgentAction.pushback d sp tp s =
      ({ s with negotiationAttempts := s.negotiationAttempts + 1 },
       s.cents) ∧
    (runNegotiationAgent AgentAction.floor d sp tp s).1.negotiationAttempts
      = s.negotiationAttempts + 1 ∧
    (runNegotiationAgent AgentAction.floor d sp tp s).1.cents =
      getFloorPrice d ∧
    runNegotiationAgent AgentAction.chat d sp tp s = (s, s.cents) := by
  refine ⟨by simp [runNegotiationAgent, incrementNegotiationAttempts],
    ?_, ?_, by simp [runNegotiationAgent]⟩
  · by_cases hlt : getFloorPrice d < s.cents
    · simp [runNegotiationAgent, hlt, updatePrice, hd,
        incrementNegotiationAttempts]
    · simp [runNegotiationAgent, hlt, incrementNegotiationAttempts]
  · by_cases hlt : getFloorPrice d < s.cents
    · simp [runNegotiationAgent, hlt, updatePrice, hd,
        incrementNegotiationAttempts]
    · have hceq : s.cents = getFloorPrice d := le_antisymm (not_lt.mp hlt) hf
      simp [runNegotiationAgent, hlt, hceq, incrementNegotiationAttempts]

/-- Witness for the amended C9, on a fresh commercial session. -/
theorem advance_attempts_amended_witness :
    runNegotiationAgent AgentAction.pushback "acme.com" none none
        (initialNegotiationState "acme.com") =
      ({ initialNegotiationState "acme.com" with
          negotiationAttempts :=
            (initialNegotiationState "acme.com").negotiationAttempts + 1 },
       (initialNegotiationState "acme.com").cents) ∧
    (runNegotiationAgent AgentAction.floor "acme.com" none none
        (initialNegotiationState "acme.com")).1.negotiationAttempts =
      (initialNegotiationState "acme.com").negotiationAttempts + 1 ∧
    (runNegotiationAgent AgentAction.floor "acme.com" none none
        (initialNegotiationState "acme.com")).1.cents =
      getFloorPrice "acme.com" ∧
    runNegotiationAgent AgentAction.chat "acme.com" none none
        (initialNegotiationState "acme.com") =
      (initialNegotiationState "acme.com",
       (initialNegotiationState "acme.com").cents) :=
  advance_attempts_amended "acme.com" none none
    (initialNegotiationState "acme.com") rfl
    (by cases h : isEduOrgDomain "acme.com" <;>
      simp [getFloorPrice, getStartingPrice, initialNegotiationState, h])

/-- C8: on a resumed settlement (`isSettling = true`) the orchestrator
mutates no credit balance whatever the settlement outcome, and recovers the
deducted portion, residual and transaction id by re-reading the most recent
USAGE row when it lies within the 300000 ms window. -/
theorem requirePayment_resume_no_deduction (st : LedgerState)
    (wallet : String) (actionCost : Int) (useCreditsFirst : Bool)
    (id1 id2 : String) (now : Nat) (outcome : SettleOutcome)
    (tx : CreditTransaction)
    (h1 : latestUsageTx st wallet = some tx)
    (h2 : now - tx.createdAt < 300000) :
    (requirePayment st wallet actionCost true useCreditsFirst id1 id2 now
        outcome).1.accounts = st.accounts ∧
    recoverSettlement st wallet actionCost now =
      (-tx.amount, actionCost - -tx.amount, some tx.id) := by
  have hrec : recoverSettlement st wallet actionCost now =
      (-tx.amount, actionCost - -tx.amount, some tx.id) := by
    unfold recoverSettlement
    rw [h1]
    simp [h2]
  refine ⟨?_, hrec⟩
  cases outcome <;> simp [requirePayment, hrec]

/-- Witness for C8: resuming 5 ms after the 60-cent deduction recorded in
row `"t1"` recovers `(60, 40, "t1")` and leaves the accounts untouched. -/
theorem requirePayment_resume_no_deduction_witness :
    (requirePayment sampleUsageStore "u" 100 true true "f1" "f2" 10
        SettleOutcome.paymentError).1.accounts =
      sampleUsageStore.accounts ∧
    recoverSettlement sampleUsageStore "u" 100 10 =
      (-(-60 : Int), 100 - -(-60 : Int), some "t1") :=
  requirePayment_resume_no_deduction sampleUsageStore "u" 100 true "f1" "f2"
    10 SettleOutcome.paymentError
    { id := "t1", userId := "u", type := TransactionType.USAGE,
      amount := -60, txHash := none, status := TransactionStatus.CONFIRMED,
      origTxId := none, createdAt := 5 }
    (by decide) (by decide)

/-- C2 (code defect): when the external settlement fails after credits were
deducted, `requirePayment` surfaces the failure with the store still in its
post-deduction state — `refundCredits` is never invoked, no REFUND row is
appended, and the balance is not restored.  Concretely: balance 60, cost
100, settlement fails — the response is the 402 failure, the balance stays
at 0 and no REFUND row exists. -/
theorem settlement_failure_leaves_credits_unrefunded :
    (∀ st w c tid rid now,
      (requirePayment st w c false true tid rid now
          SettleOutcome.verifiedFailed).1 =
        (processPayment st c w PaymentPreference.CREDITS_FIRST tid now).1) ∧
    (requirePayment sampleStore "u" 100 false true "t1" "r1" 5
        SettleOutcome.verifiedFailed).2 =
      MiddlewareResult.settlementFailedResponse ∧
    sampleStore.balanceOf "u" = 60 ∧
    (requirePayment sampleStore "u" 100 false true "t1" "r1" 5
        SettleOutcome.verifiedFailed).1.balanceOf "u" = 0 ∧
    ((requirePayment sampleStore "u" 100 false true "t1" "r1" 5
        SettleOutcome.verifiedFailed).1.txns.filter fun t =>
      decide (t.type = TransactionType.REFUND)).length = 0 := by
  refine ⟨?_, by decide, by decide, by decide, by decide⟩
  intro st w c tid rid now
  by_cases h : (processPayment st c w PaymentPreference.CREDITS_FIRST tid
      now).2.remainingCostCents ≤ 0
  · simp [requirePayment, h]
  · simp [requirePayment, h]

/-- Counterexample to C10: `verifyTransaction` accepts a transaction whose
decoded transfer total is 0 — far below the expected residual of 40 cents
(400000 minor units) — because the transaction carried a positive native
value (the lenient ETH fallback). -/
theorem verifyTransaction_accepts_underpayment :
    verifyTransaction ethFallbackTx 40 "0xabc" = true ∧
    paidAmountRaw ethFallbackTx.logs "0xabc" = 0 ∧
    ¬((40 : Int) * 10000 ≤ paidAmountRaw ethFallbackTx.logs "0xabc") := by
  refine ⟨by decide, by decide, by decide⟩

/-- C10 (amended): `verifyTransaction` returns true only if the receipt
succeeded, the on-chain sender matches the claimed wallet
(case-insensitively), and EITHER the decoded transfer total reaches the
expected residual in minor units OR the transaction carried a positive
native value (the lenient fallback). -/
theorem verifyTransaction_sound (tx : ChainTx) (expectedCents : Int)
    (userWallet : String)
    (h : verifyTransaction tx expectedCents userWallet = true) :
    tx.receiptSuccess = true ∧
    lowerStr tx.sender = lowerStr userWallet ∧
    (expectedCents * 10000 ≤ paidAmountRaw tx.logs userWallet ∨
      0 < tx.value) := by
  simp only [verifyTransaction] at h
  split_ifs at h with h1 h2 h3 h4
  all_goals exact ⟨by simpa using h1, by simpa using h2, by tauto⟩

/-- Witness for the amended C10: a 500000-unit transfer against a 40-cent
residual verifies, so all three conclusions hold. -/
theorem verifyTransaction_sound_witness :
    paidTx.receiptSuccess = true ∧
    lowerStr paidTx.sender = lowerStr "0xabc" ∧
    ((40 : Int) * 10000 ≤ paidAmountRaw paidTx.logs "0xabc" ∨
      0 < paidTx.value) :=
  verifyTransaction_sound paidTx 40 "0xabc" (by decide)
